import Mathlib

/-!
Shallow embedding of `src/groth16/prover/supraseal.rs` (bellperson's SupraSeal
batch prover front-end) and the parts of its data model it depends on.

The file `supraseal.rs` itself is embedded directly.  The `ProvingAssignment`
constraint-system implementation and the `DensityTracker` it uses live in
sibling modules of the repository that are not among the given sources, so
those are modelled from the spec (§3, §4.1, §4.2); each such definition is
marked `Modelled from the spec:` in its doc comment.  The SupraSeal C++
backend is out of scope for the spec and is modelled as an opaque per-circuit
capability applied index-aligned over the batch (spec §4.5, §6).
-/

namespace Supraseal

/-- Modelled from the spec: the error kinds of §7.  The concrete
`SynthesisError` enum comes from `bellpepper_core`, which is not among the
given sources; we keep one constructor per error kind the spec names, plus a
generic circuit-provided failure. -/
inductive SynthesisError where
  | assignmentMissing
  | unsatisfiable
  | malformedSrs
  deriving DecidableEq, Repr

/-- Modelled from the spec: a variable reference (§3 "Variable"), either a
public-input slot or an auxiliary slot (`bellpepper_core::Index`). -/
inductive Index where
  | input (i : Nat)
  | aux (i : Nat)
  deriving DecidableEq, Repr

/-- Modelled from the spec: a linear combination as a list of
(variable, coefficient) pairs (`bellpepper_core::LinearCombination`). -/
abbrev Lc (F : Type) := List (Index × F)

/-- Modelled from the spec: the Density Tracker (§3, §4.1) — an ordered bit
sequence `bv` plus a cached popcount (`bellperson::multiexp::DensityTracker`,
whose `bv` field and `get_total_density` method `supraseal.rs` reads). -/
structure DensityTracker where
  bv : List Bool
  total_density : Nat
  deriving DecidableEq, Repr

def DensityTracker.new : DensityTracker := ⟨[], 0⟩

/-- Modelled from the spec: allocation appends one unset bit for the new
variable of this category. -/
def DensityTracker.add_element (dt : DensityTracker) : DensityTracker :=
  { dt with bv := dt.bv ++ [false] }

/-- Modelled from the spec: mark bit `i` as set when variable `i` participates
with a nonzero coefficient, bumping the cached popcount only on a
false-to-true transition. -/
def DensityTracker.inc (dt : DensityTracker) (i : Nat) : DensityTracker :=
  if dt.bv.getD i false then dt
  else { bv := dt.bv.set i true, total_density := dt.total_density + 1 }

/-- Returns the cached popcount in O(1) (spec §4.1). -/
def DensityTracker.get_total_density (dt : DensityTracker) : Nat :=
  dt.total_density

/-- Modelled from the spec: the per-circuit recorder (§3 "ProvingAssignment").
The field set is exactly what `supraseal.rs` reads from it: three density
trackers, the `a`, `b`, `c` evaluation sequences, and the input/aux
assignment vectors. -/
structure ProvingAssignment (F : Type) where
  a_aux_density : DensityTracker
  b_input_density : DensityTracker
  b_aux_density : DensityTracker
  a : List F
  b : List F
  c : List F
  input_assignment : List F
  aux_assignment : List F
  deriving DecidableEq, Repr

variable {F : Type} [CommRing F] [DecidableEq F]

/-- Modelled from the spec: a freshly created, empty recorder. -/
def ProvingAssignment.new : ProvingAssignment F :=
  ⟨DensityTracker.new, DensityTracker.new, DensityTracker.new, [], [], [], [], []⟩

/-- Modelled from the spec (§4.2): `alloc_input` appends a public-input value
and registers one fresh (unset) bit in the B-side input tracker. -/
def ProvingAssignment.alloc_input (pa : ProvingAssignment F) (v : F) :
    ProvingAssignment F :=
  { pa with
    input_assignment := pa.input_assignment ++ [v]
    b_input_density := pa.b_input_density.add_element }

/-- Modelled from the spec (§4.2): `alloc` appends an auxiliary value and
registers one fresh (unset) bit in both auxiliary trackers. -/
def ProvingAssignment.alloc (pa : ProvingAssignment F) (v : F) :
    ProvingAssignment F :=
  { pa with
    aux_assignment := pa.aux_assignment ++ [v]
    a_aux_density := pa.a_aux_density.add_element
    b_aux_density := pa.b_aux_density.add_element }

/-- Modelled from the spec (§4.2): evaluate a linear combination over the
current assignment state. -/
def evalLc (lc0 : Lc F) (inputs auxs : List F) : F :=
  lc0.foldl
    (fun acc t =>
      acc + t.2 *
        (match t.1 with
          | Index.input i => inputs.getD i 0
          | Index.aux i => auxs.getD i 0))
    0

/-- Modelled from the spec (§4.2): mark the auxiliary variables referenced
with a nonzero coefficient in a linear combination. -/
def markAux (lc0 : Lc F) (dt : DensityTracker) : DensityTracker :=
  lc0.foldl
    (fun d t =>
      match t.1 with
      | Index.aux i => if t.2 = 0 then d else d.inc i
      | Index.input _ => d)
    dt

/-- Modelled from the spec (§4.2): mark the public-input variables referenced
with a nonzero coefficient in a linear combination. -/
def markInput (lc0 : Lc F) (dt : DensityTracker) : DensityTracker :=
  lc0.foldl
    (fun d t =>
      match t.1 with
      | Index.input i => if t.2 = 0 then d else d.inc i
      | Index.aux _ => d)
    dt

/-- Modelled from the spec (§4.2): `enforce` appends one evaluated triple to
`a`, `b`, `c` and records density: A-side auxiliary participation from the A
combination, input and auxiliary participation from the B combination (there
is no A-side input tracker; §4.2's identity constraints exist because of
that). -/
def ProvingAssignment.enforce (pa : ProvingAssignment F) (la lb lc0 : Lc F) :
    ProvingAssignment F :=
  { pa with
    a := pa.a ++ [evalLc la pa.input_assignment pa.aux_assignment]
    b := pa.b ++ [evalLc lb pa.input_assignment pa.aux_assignment]
    c := pa.c ++ [evalLc lc0 pa.input_assignment pa.aux_assignment]
    a_aux_density := markAux la pa.a_aux_density
    b_input_density := markInput lb pa.b_input_density
    b_aux_density := markAux lb pa.b_aux_density }

/-- Modelled from the spec (§6 "Circuit capability"): a circuit is its
synthesis trace — the sequence of constraint-system calls it makes, or a
point at which it fails with a synthesis error. -/
inductive SynthOp (F : Type) where
  | allocInput (v : F)
  | allocAux (v : F)
  | enforce (la lb lc0 : Lc F)
  | fail (e : SynthesisError)
  deriving DecidableEq, Repr

abbrev Circuit (F : Type) := List (SynthOp F)

/-- One constraint-system call of a circuit, acting on the recorder. -/
def synthStep (pa : ProvingAssignment F) :
    SynthOp F → Except SynthesisError (ProvingAssignment F)
  | SynthOp.allocInput v => Except.ok (pa.alloc_input v)
  | SynthOp.allocAux v => Except.ok (pa.alloc v)
  | SynthOp.enforce la lb lc0 => Except.ok (pa.enforce la lb lc0)
  | SynthOp.fail e => Except.error e

/-- Modelled from the spec: `circuit.synthesize(&mut prover)` — run the
circuit's calls in order, stopping at the first error. -/
def synthesize : Circuit F → ProvingAssignment F →
    Except SynthesisError (ProvingAssignment F)
  | [], pa => Except.ok pa
  | op :: rest, pa =>
    match synthStep pa op with
    | Except.ok pa' => synthesize rest pa'
    | Except.error e => Except.error e

/-- Sequential, order-preserving, fail-fast map: the semantics of
`into_par_iter().map(...).collect::<Result<Vec<_>, _>>()` used by
`synthesize_circuits_batch` (rayon's collect is index-order preserving). -/
def mapExcept {α β ε : Type} (f : α → Except ε β) : List α → Except ε (List β)
  | [] => Except.ok []
  | x :: xs =>
    match f x with
    | Except.error e => Except.error e
    | Except.ok y =>
      match mapExcept f xs with
      | Except.error e => Except.error e
      | Except.ok ys => Except.ok (y :: ys)

/-- The loop `for i in 0..prover.input_assignment.len() { prover.enforce(.., |lc| lc + Variable(Index::Input(i)), |lc| lc, |lc| lc) }`
from `synthesize_circuits_batch` (supraseal.rs lines 136–138). -/
def addInputConstraints (pa : ProvingAssignment F) : ProvingAssignment F :=
  (List.range pa.input_assignment.length).foldl
    (fun p i => p.enforce [(Index.input i, 1)] [] []) pa

/-- The per-circuit body of `synthesize_circuits_batch` (supraseal.rs lines
129–141): fresh recorder, allocate the constant-one input, run the circuit,
then append one constraint per public input. -/
def synthesizeOne (circuit : Circuit F) :
    Except SynthesisError (ProvingAssignment F) :=
  match synthesize circuit ((ProvingAssignment.new).alloc_input 1) with
  | Except.error e => Except.error e
  | Except.ok prover => Except.ok (addInputConstraints prover)

/-- `synthesize_circuits_batch` (supraseal.rs lines 116–146). -/
def synthesize_circuits_batch (circuits : List (Circuit F)) :
    Except SynthesisError (List (ProvingAssignment F)) :=
  mapExcept synthesizeOne circuits

/-- The flat exported view `supraseal_c2::Assignment`: raw pointers are
modelled as the lists they point into, alongside the explicit length and
popcount scalar fields the conversion fills in (supraseal.rs lines 14–47). -/
structure Assignment (F : Type) where
  a_aux_density : List Bool
  a_aux_bit_len : Nat
  a_aux_popcount : Nat
  b_inp_density : List Bool
  b_inp_bit_len : Nat
  b_inp_popcount : Nat
  b_aux_density : List Bool
  b_aux_bit_len : Nat
  b_aux_popcount : Nat
  a : List F
  b : List F
  c : List F
  abc_size : Nat
  inp_assignment_data : List F
  inp_assignment_size : Nat
  aux_assignment_data : List F
  aux_assignment_size : Nat
  deriving DecidableEq, Repr

/-- The body of `From<&ProvingAssignment<Scalar>> for supraseal_c2::Assignment`
(supraseal.rs lines 22–46), after its two assertions have passed. -/
def assignmentFrom (pa : ProvingAssignment F) : Assignment F :=
  { a_aux_density := pa.a_aux_density.bv
    a_aux_bit_len := pa.a_aux_density.bv.length
    a_aux_popcount := pa.a_aux_density.get_total_density
    b_inp_density := pa.b_input_density.bv
    b_inp_bit_len := pa.b_input_density.bv.length
    b_inp_popcount := pa.b_input_density.get_total_density
    b_aux_density := pa.b_aux_density.bv
    b_aux_bit_len := pa.b_aux_density.bv.length
    b_aux_popcount := pa.b_aux_density.get_total_density
    a := pa.a
    b := pa.b
    c := pa.c
    abc_size := pa.a.length
    inp_assignment_data := pa.input_assignment
    inp_assignment_size := pa.input_assignment.length
    aux_assignment_data := pa.aux_assignment
    aux_assignment_size := pa.aux_assignment.length }

/-- The whole `From` conversion including its two `assert_eq!` guards
(supraseal.rs lines 19–20): `none` models the assertion panic. -/
def assignmentFromChecked (pa : ProvingAssignment F) : Option (Assignment F) :=
  if pa.a.length = pa.b.length ∧ pa.a.length = pa.c.length then
    some (assignmentFrom pa)
  else none

/-- Outcome of running `create_proof_batch_priority_inner`: a returned value,
a returned `SynthesisError`, or a Rust panic (from a failed `assert_eq!`). -/
inductive RunResult (α : Type) where
  | ok (val : α)
  | err (e : SynthesisError)
  | panic (msg : String)
  deriving DecidableEq, Repr

/-- The argument bundle handed to `supraseal_c2::generate_groth16_proofs`;
recorded so theorems can speak about whether and how the backend was
invoked. -/
structure BackendArgs (F S : Type) where
  provers_c2 : List (Assignment F)
  r_s : List F
  s_s : List F
  srs : S
  deriving DecidableEq, Repr

/-- The `for prover in &provers { assert_eq!(prover.a.len(), provers[0].a.len(), ..) }`
loop (supraseal.rs lines 80–87): vacuously true on an empty batch — the loop
body, and with it the indexing `provers[0]`, never runs. -/
def sizeCheck (provers : List (ProvingAssignment F)) : Bool :=
  match provers with
  | [] => true
  | p0 :: _ => provers.all (fun p => p.a.length == p0.a.length)

/-- Sequential fail-fast map for `Option`, the semantics of
`provers.iter().map(|p| p.into()).collect()` with possibly-panicking
conversions. -/
def mapOpt {α β : Type} (f : α → Option β) : List α → Option (List β)
  | [] => some []
  | x :: xs =>
    match f x with
    | none => none
    | some y =>
      match mapOpt f xs with
      | none => none
      | some ys => some (y :: ys)

/-- `create_proof_batch_priority_inner` (supraseal.rs lines 50–115), following
the source's order of effects: synthesize the batch, default the
randomization pairs, run the equal-size assertion loop, convert every prover
to its flat view, resolve the SRS (`MalformedSrs` on failure), then call the
backend once.  The backend is out of scope and modelled from the spec (§6):
`prove1` is the opaque per-circuit proving capability, applied index-aligned
over the batch; the second component records the arguments of the backend
call, `none` when the backend was never invoked. -/
def create_proof_batch_priority_inner {S P : Type}
    (prove1 : Assignment F → F → F → S → P)
    (circuits : List (Circuit F)) (srsSource : Option S)
    (randomization : Option (List F × List F)) :
    RunResult (List P) × Option (BackendArgs F S) :=
  match synthesize_circuits_batch circuits with
  | Except.error e => (RunResult.err e, none)
  | Except.ok provers =>
    let num_circuits := provers.length
    let rs := randomization.getD
      (List.replicate num_circuits 0, List.replicate num_circuits 0)
    if sizeCheck provers then
      match mapOpt assignmentFromChecked provers with
      | none => (RunResult.panic "assertion failed", none)
      | some provers_c2 =>
        match srsSource with
        | none => (RunResult.err SynthesisError.malformedSrs, none)
        | some srs =>
          let proofs := List.zipWith (fun pc2 rr => prove1 pc2 rr.1 rr.2 srs)
            provers_c2 (rs.1.zip rs.2)
          (RunResult.ok proofs, some ⟨provers_c2, rs.1, rs.2, srs⟩)
    else (RunResult.panic "only equaly sized circuits are supported", none)

/-- The `len(a) == len(b) == len(c)` invariant of spec §3, i.e. exactly the
two assertions of the export conversion (supraseal.rs lines 19–20). -/
def abcOk (pa : ProvingAssignment F) : Prop :=
  pa.a.length = pa.b.length ∧ pa.a.length = pa.c.length

/-- The scalar field used for concrete check inputs: the prime field with
five elements. -/
abbrev F5 := ZMod 5

/-- A concrete backend capability for concrete runs. -/
def w1 : Assignment F5 → F5 → F5 → Unit → Nat := fun _ _ _ _ => 0

/-- A circuit that makes no constraint-system calls. -/
def emptyCircuit : Circuit F5 := []

/-- A circuit with one (trivial) constraint and no declared public inputs. -/
def oneConstraintCircuit : Circuit F5 := [SynthOp.enforce [] [] []]

/-- A circuit declaring one public input (value 2) and no constraints. -/
def oneInputCircuit : Circuit F5 := [SynthOp.allocInput 2]

/-- A circuit whose synthesis fails. -/
def failingCircuit : Circuit F5 := [SynthOp.fail SynthesisError.assignmentMissing]

/-- The recorder `synthesizeOne` produces for `emptyCircuit`. -/
def pr0 : ProvingAssignment F5 :=
  ⟨⟨[], 0⟩, ⟨[false], 0⟩, ⟨[], 0⟩, [1], [0], [0], [1], []⟩

/-- The recorder `synthesizeOne` produces for `oneConstraintCircuit`. -/
def prA : ProvingAssignment F5 :=
  ⟨⟨[], 0⟩, ⟨[false], 0⟩, ⟨[], 0⟩, [0, 1], [0, 0], [0, 0], [1], []⟩

/-- The recorder `synthesizeOne` produces for `oneInputCircuit`. -/
def prI2 : ProvingAssignment F5 :=
  ⟨⟨[], 0⟩, ⟨[false, false], 0⟩, ⟨[], 0⟩, [1, 2], [0, 0], [0, 0], [1, 2], []⟩

deriving instance DecidableEq for Except

/-! ### Helper lemmas about the fail-fast maps -/

theorem mapExcept_ok_length {α β ε : Type} (f : α → Except ε β) :
    ∀ (xs : List α) (ys : List β), mapExcept f xs = Except.ok ys →
      ys.length = xs.length := by
  intro xs
  induction xs with
  | nil =>
    intro ys h
    simp only [mapExcept] at h
    cases h
    rfl
  | cons x xs ih =>
    intro ys h
    simp only [mapExcept] at h
    cases hx : f x with
    | error e => rw [hx] at h; cases h
    | ok y =>
      rw [hx] at h
      cases hxs : mapExcept f xs with
      | error e => rw [hxs] at h; cases h
      | ok ys' =>
        rw [hxs] at h
        cases h
        simp [ih ys' hxs]

theorem mapExcept_ok_getD {α β ε : Type} (f : α → Except ε β) :
    ∀ (xs : List α) (ys : List β), mapExcept f xs = Except.ok ys →
      ∀ (i : Nat) (dx : α) (dy : β), i < xs.length →
        f (xs.getD i dx) = Except.ok (ys.getD i dy) := by
  intro xs
  induction xs with
  | nil =>
    intro ys _ i dx dy hi
    exact absurd hi (by simp)
  | cons x xs ih =>
    intro ys h i dx dy hi
    simp only [mapExcept] at h
    cases hx : f x with
    | error e => rw [hx] at h; cases h
    | ok y =>
      rw [hx] at h
      cases hxs : mapExcept f xs with
      | error e => rw [hxs] at h; cases h
      | ok ys' =>
        rw [hxs] at h
        cases h
        cases i with
        | zero => simpa using hx
        | succ n =>
          simp only [List.getD_cons_succ]
          exact ih ys' hxs n dx dy (by simpa using hi)

theorem mapExcept_ok_mem {α β ε : Type} (f : α → Except ε β) :
    ∀ (xs : List α) (ys : List β), mapExcept f xs = Except.ok ys →
      ∀ y ∈ ys, ∃ x ∈ xs, f x = Except.ok y := by
  intro xs
  induction xs with
  | nil =>
    intro ys h y hy
    simp only [mapExcept] at h
    cases h
    cases hy
  | cons x xs ih =>
    intro ys h y hy
    simp only [mapExcept] at h
    cases hx : f x with
    | error e => rw [hx] at h; cases h
    | ok y' =>
      rw [hx] at h
      cases hxs : mapExcept f xs with
      | error e => rw [hxs] at h; cases h
      | ok ys' =>
        rw [hxs] at h
        cases h
        cases hy with
        | head => exact ⟨x, List.mem_cons_self x xs, hx⟩
        | tail _ hy' =>
          obtain ⟨x', hx'mem, hx'⟩ := ih ys' hxs y hy'
          exact ⟨x', List.mem_cons_of_mem x hx'mem, hx'⟩

theorem mapExcept_error_first {α β ε : Type} (f : α → Except ε β) :
    ∀ (xs : List α) (i : Nat) (dx : α) (e : ε), i < xs.length →
      f (xs.getD i dx) = Except.error e →
      (∀ j, j < i → ∃ y, f (xs.getD j dx) = Except.ok y) →
      mapExcept f xs = Except.error e := by
  intro xs
  induction xs with
  | nil =>
    intro i dx e hi _ _
    exact absurd hi (by simp)
  | cons x xs ih =>
    intro i dx e hi hf hok
    cases i with
    | zero =>
      simp only [List.getD_cons_zero] at hf
      simp only [mapExcept, hf]
    | succ n =>
      obtain ⟨y, hy⟩ := hok 0 (Nat.succ_pos n)
      simp only [List.getD_cons_zero] at hy
      simp only [List.getD_cons_succ] at hf
      have htail : mapExcept f xs = Except.error e := by
        refine ih n dx e (by simpa using hi) hf ?_
        intro j hj
        have := hok (j + 1) (by omega)
        simpa using this
      simp only [mapExcept, hy, htail]

theorem mapOpt_map_of_all {α β : Type} (f : α → Option β) (g : α → β) :
    ∀ (xs : List α), (∀ x ∈ xs, f x = some (g x)) →
      mapOpt f xs = some (xs.map g) := by
  intro xs
  induction xs with
  | nil => intro _; rfl
  | cons x xs ih =>
    intro hall
    have hx : f x = some (g x) := hall x (List.mem_cons_self x xs)
    have hxs : mapOpt f xs = some (xs.map g) :=
      ih fun x' hx' => hall x' (List.mem_cons_of_mem x hx')
    simp only [mapOpt, hx, hxs, List.map_cons]

/-! ### Helper lemmas about list indexing -/

theorem map_getD {α β : Type} (g : α → β) :
    ∀ (xs : List α) (i : Nat) (dx : α),
      (xs.map g).getD i (g dx) = g (xs.getD i dx) := by
  intro xs
  induction xs with
  | nil => intro i dx; simp
  | cons x xs ih =>
    intro i dx
    cases i with
    | zero => simp
    | succ n => simp only [List.map_cons, List.getD_cons_succ]; exact ih n dx

theorem zipWith_getD {α β γ : Type} (h : α → β → γ) :
    ∀ (xs : List α) (ys : List β) (i : Nat) (dx : α) (dy : β) (dz : γ),
      i < xs.length → i < ys.length →
      (List.zipWith h xs ys).getD i dz = h (xs.getD i dx) (ys.getD i dy) := by
  intro xs
  induction xs with
  | nil =>
    intro ys i dx dy dz hx _
    exact absurd hx (by simp)
  | cons x xs ih =>
    intro ys i dx dy dz hx hy
    cases ys with
    | nil => exact absurd hy (by simp)
    | cons y ys =>
      cases i with
      | zero => simp
      | succ n =>
        simp only [List.zipWith_cons_cons, List.getD_cons_succ]
        exact ih ys n dx dy dz (by simpa using hx) (by simpa using hy)

theorem getD_replicate_self {α : Type} (x : α) :
    ∀ (n i : Nat), (List.replicate n x).getD i x = x := by
  intro n
  induction n with
  | zero => intro i; simp
  | succ m ih =>
    intro i
    cases i with
    | zero => simp [List.replicate_succ]
    | succ j => simp only [List.replicate_succ, List.getD_cons_succ]; exact ih j

theorem range_map_getD {α : Type} :
    ∀ (l : List α) (d : α),
      (List.range l.length).map (fun i => l.getD i d) = l := by
  intro l
  induction l with
  | nil => intro d; simp
  | cons x tl ih =>
    intro d
    rw [List.length_cons, List.range_succ_eq_map, List.map_cons, List.map_map]
    have hfun : ((fun i => (x :: tl).getD i d) ∘ Nat.succ) = fun i => tl.getD i d := by
      funext i
      simp [List.getD_cons_succ]
    rw [List.getD_cons_zero, hfun, ih d]

/-! ### The shape of the appended per-input constraints -/

theorem enforce_inputConstraint_fields (pa : ProvingAssignment F) (i : Nat) :
    (pa.enforce [(Index.input i, 1)] [] []).a
        = pa.a ++ [pa.input_assignment.getD i 0]
    ∧ (pa.enforce [(Index.input i, 1)] [] []).b = pa.b ++ [0]
    ∧ (pa.enforce [(Index.input i, 1)] [] []).c = pa.c ++ [0]
    ∧ (pa.enforce [(Index.input i, 1)] [] []).input_assignment
        = pa.input_assignment
    ∧ (pa.enforce [(Index.input i, 1)] [] []).aux_assignment
        = pa.aux_assignment := by
  refine ⟨?_, rfl, rfl, rfl, rfl⟩
  simp [ProvingAssignment.enforce, evalLc]

theorem foldl_inputConstraints (l : List Nat) :
    ∀ (pa : ProvingAssignment F),
      ((l.foldl (fun p i => p.enforce [(Index.input i, 1)] [] []) pa).a
          = pa.a ++ l.map (fun i => pa.input_assignment.getD i 0))
      ∧ ((l.foldl (fun p i => p.enforce [(Index.input i, 1)] [] []) pa).b
          = pa.b ++ List.replicate l.length 0)
      ∧ ((l.foldl (fun p i => p.enforce [(Index.input i, 1)] [] []) pa).c
          = pa.c ++ List.replicate l.length 0)
      ∧ ((l.foldl (fun p i => p.enforce [(Index.input i, 1)] [] []) pa).input_assignment
          = pa.input_assignment)
      ∧ ((l.foldl (fun p i => p.enforce [(Index.input i, 1)] [] []) pa).aux_assignment
          = pa.aux_assignment) := by
  induction l with
  | nil => intro pa; simp
  | cons i l ih =>
    intro pa
    simp only [List.foldl_cons]
    obtain ⟨ha, hb, hc, hin, haux⟩ := ih (pa.enforce [(Index.input i, 1)] [] [])
    obtain ⟨ea, eb, ec, ein, eaux⟩ := enforce_inputConstraint_fields pa i
    simp only [ein] at ha
    refine ⟨?_, ?_, ?_, ?_, ?_⟩
    · rw [ha, ea]
      simp [List.append_assoc]
    · rw [hb, eb]
      simp [List.replicate_succ, List.append_assoc]
    · rw [hc, ec]
      simp [List.replicate_succ, List.append_assoc]
    · rw [hin, ein]
    · rw [haux, eaux]

theorem addInputConstraints_spec (pa : ProvingAssignment F) :
    (addInputConstraints pa).a = pa.a ++ pa.input_assignment
    ∧ (addInputConstraints pa).b
        = pa.b ++ List.replicate pa.input_assignment.length 0
    ∧ (addInputConstraints pa).c
        = pa.c ++ List.replicate pa.input_assignment.length 0
    ∧ (addInputConstraints pa).input_assignment = pa.input_assignment
    ∧ (addInputConstraints pa).aux_assignment = pa.aux_assignment := by
  obtain ⟨ha, hb, hc, hin, haux⟩ :=
    foldl_inputConstraints (List.range pa.input_assignment.length) pa
  unfold addInputConstraints
  refine ⟨?_, ?_, ?_, hin, haux⟩
  · rw [ha, range_map_getD]
  · rw [hb, List.length_range]
  · rw [hc, List.length_range]

/-! ### Append-only growth of the input assignment -/

theorem synthStep_input_extends (pa pa' : ProvingAssignment F) (op : SynthOp F)
    (h : synthStep pa op = Except.ok pa') :
    ∃ tl, pa'.input_assignment = pa.input_assignment ++ tl := by
  cases op with
  | allocInput v =>
    simp only [synthStep, Except.ok.injEq] at h
    subst h
    exact ⟨[v], rfl⟩
  | allocAux v =>
    simp only [synthStep, Except.ok.injEq] at h
    subst h
    exact ⟨[], by simp [ProvingAssignment.alloc]⟩
  | enforce la lb lc0 =>
    simp only [synthStep, Except.ok.injEq] at h
    subst h
    exact ⟨[], by simp [ProvingAssignment.enforce]⟩
  | fail e => simp only [synthStep] at h; cases h

theorem synthesize_input_extends :
    ∀ (c : Circuit F) (pa pa' : ProvingAssignment F),
      synthesize c pa = Except.ok pa' →
      ∃ tl, pa'.input_assignment = pa.input_assignment ++ tl := by
  intro c
  induction c with
  | nil =>
    intro pa pa' h
    simp only [synthesize, Except.ok.injEq] at h
    subst h
    exact ⟨[], by simp⟩
  | cons op rest ih =>
    intro pa pa' h
    simp only [synthesize] at h
    cases hs : synthStep pa op with
    | error e => rw [hs] at h; cases h
    | ok pa1 =>
      rw [hs] at h
      obtain ⟨tl1, h1⟩ := synthStep_input_extends pa pa1 op hs
      obtain ⟨tl2, h2⟩ := ih pa1 pa' h
      exact ⟨tl1 ++ tl2, by rw [h2, h1, List.append_assoc]⟩

/-! ### The a/b/c equal-length invariant -/

theorem synthStep_abcOk (pa pa' : ProvingAssignment F) (op : SynthOp F)
    (h : synthStep pa op = Except.ok pa') (hok : abcOk pa) : abcOk pa' := by
  cases op with
  | allocInput v =>
    simp only [synthStep, Except.ok.injEq] at h
    subst h
    exact hok
  | allocAux v =>
    simp only [synthStep, Except.ok.injEq] at h
    subst h
    exact hok
  | enforce la lb lc0 =>
    simp only [synthStep, Except.ok.injEq] at h
    subst h
    obtain ⟨h1, h2⟩ := hok
    refine ⟨?_, ?_⟩ <;> (simp [ProvingAssignment.enforce]; omega)
  | fail e => simp only [synthStep] at h; cases h

theorem synthesize_abcOk :
    ∀ (c : Circuit F) (pa pa' : ProvingAssignment F),
      synthesize c pa = Except.ok pa' → abcOk pa → abcOk pa' := by
  intro c
  induction c with
  | nil =>
    intro pa pa' h hok
    simp only [synthesize, Except.ok.injEq] at h
    subst h
    exact hok
  | cons op rest ih =>
    intro pa pa' h hok
    simp only [synthesize] at h
    cases hs : synthStep pa op with
    | error e => rw [hs] at h; cases h
    | ok pa1 =>
      rw [hs] at h
      exact ih pa1 pa' h (synthStep_abcOk pa pa1 op hs hok)

theorem addInputConstraints_abcOk (pa : ProvingAssignment F) (h : abcOk pa) :
    abcOk (addInputConstraints pa) := by
  obtain ⟨ha, hb, hc, _, _⟩ := addInputConstraints_spec pa
  obtain ⟨h1, h2⟩ := h
  constructor
  · rw [ha, hb]; simp [h1]
  · rw [ha, hc]; simp [h2]

theorem synthesizeOne_abcOk (c : Circuit F) (pr : ProvingAssignment F)
    (h : synthesizeOne c = Except.ok pr) : abcOk pr := by
  unfold synthesizeOne at h
  cases hs : synthesize c ((ProvingAssignment.new).alloc_input 1) with
  | error e => rw [hs] at h; cases h
  | ok pa =>
    rw [hs] at h
    simp only [Except.ok.injEq] at h
    subst h
    exact addInputConstraints_abcOk pa (synthesize_abcOk c _ pa hs ⟨rfl, rfl⟩)

theorem batch_prover_abcOk (circuits : List (Circuit F))
    (provers : List (ProvingAssignment F))
    (hsyn : synthesize_circuits_batch circuits = Except.ok provers)
    (pr : ProvingAssignment F) (hmem : pr ∈ provers) : abcOk pr := by
  obtain ⟨c, _, hc⟩ := mapExcept_ok_mem synthesizeOne circuits provers hsyn pr hmem
  exact synthesizeOne_abcOk c pr hc

theorem batch_checked_conversion (circuits : List (Circuit F))
    (provers : List (ProvingAssignment F))
    (hsyn : synthesize_circuits_batch circuits = Except.ok provers) :
    mapOpt assignmentFromChecked provers = some (provers.map assignmentFrom) := by
  refine mapOpt_map_of_all _ _ provers ?_
  intro pr hmem
  have h := batch_prover_abcOk circuits provers hsyn pr hmem
  unfold assignmentFromChecked
  rw [if_pos ⟨h.1, h.2⟩]

/-! ### Path lemmas for `create_proof_batch_priority_inner` -/

theorem create_proof_err_of_synth {S P : Type}
    (prove1 : Assignment F → F → F → S → P) (circuits : List (Circuit F))
    (srsSource : Option S) (randomization : Option (List F × List F))
    (e : SynthesisError)
    (hsyn : synthesize_circuits_batch circuits = Except.error e) :
    create_proof_batch_priority_inner prove1 circuits srsSource randomization
      = (RunResult.err e, none) := by
  unfold create_proof_batch_priority_inner
  rw [hsyn]

theorem create_proof_panic_of_sizeCheck {S P : Type}
    (prove1 : Assignment F → F → F → S → P) (circuits : List (Circuit F))
    (srsSource : Option S) (randomization : Option (List F × List F))
    (provers : List (ProvingAssignment F))
    (hsyn : synthesize_circuits_batch circuits = Except.ok provers)
    (hsz : sizeCheck provers = false) :
    create_proof_batch_priority_inner prove1 circuits srsSource randomization
      = (RunResult.panic "only equaly sized circuits are supported", none) := by
  unfold create_proof_batch_priority_inner
  rw [hsyn]
  simp [hsz]

theorem create_proof_convpanic_path {S P : Type}
    (prove1 : Assignment F → F → F → S → P) (circuits : List (Circuit F))
    (srsSource : Option S) (randomization : Option (List F × List F))
    (provers : List (ProvingAssignment F))
    (hsyn : synthesize_circuits_batch circuits = Except.ok provers)
    (hsz : sizeCheck provers = true)
    (hconv : mapOpt assignmentFromChecked provers = none) :
    create_proof_batch_priority_inner prove1 circuits srsSource randomization
      = (RunResult.panic "assertion failed", none) := by
  unfold create_proof_batch_priority_inner
  rw [hsyn]
  simp [hsz, hconv]

theorem create_proof_malformed_path {S P : Type}
    (prove1 : Assignment F → F → F → S → P) (circuits : List (Circuit F))
    (randomization : Option (List F × List F))
    (provers : List (ProvingAssignment F)) (provers_c2 : List (Assignment F))
    (hsyn : synthesize_circuits_batch circuits = Except.ok provers)
    (hsz : sizeCheck provers = true)
    (hconv : mapOpt assignmentFromChecked provers = some provers_c2) :
    create_proof_batch_priority_inner prove1 circuits (none : Option S)
        randomization
      = (RunResult.err SynthesisError.malformedSrs, none) := by
  unfold create_proof_batch_priority_inner
  rw [hsyn]
  simp [hsz, hconv]

theorem create_proof_ok_path {S P : Type}
    (prove1 : Assignment F → F → F → S → P) (circuits : List (Circuit F))
    (srs : S) (randomization : Option (List F × List F))
    (provers : List (ProvingAssignment F)) (provers_c2 : List (Assignment F))
    (hsyn : synthesize_circuits_batch circuits = Except.ok provers)
    (hsz : sizeCheck provers = true)
    (hconv : mapOpt assignmentFromChecked provers = some provers_c2) :
    create_proof_batch_priority_inner prove1 circuits (some srs) randomization
      = (RunResult.ok
          (List.zipWith (fun pc2 rr => prove1 pc2 rr.1 rr.2 srs) provers_c2
            (((randomization.getD (List.replicate provers.length 0,
                List.replicate provers.length 0)).1).zip
             ((randomization.getD (List.replicate provers.length 0,
                List.replicate provers.length 0)).2))),
         some ⟨provers_c2,
           (randomization.getD (List.replicate provers.length 0,
             List.replicate provers.length 0)).1,
           (randomization.getD (List.replicate provers.length 0,
             List.replicate provers.length 0)).2, srs⟩) := by
  unfold create_proof_batch_priority_inner
  rw [hsyn]
  simp [hsz, hconv]

theorem zip_getD {α β : Type} (xs : List α) (ys : List β) (i : Nat)
    (dx : α) (dy : β) (hx : i < xs.length) (hy : i < ys.length) :
    (xs.zip ys).getD i (dx, dy) = (xs.getD i dx, ys.getD i dy) :=
  zipWith_getD Prod.mk xs ys i dx dy (dx, dy) hx hy

/-! ### The claims -/

/-- C1 counterexample: the batch `[oneConstraintCircuit, emptyCircuit]` has a
uniform public-input arity (both recorders hold exactly one public input),
every synthesis succeeds and the SRS resolves, yet
`create_proof_batch_priority_inner` panics on the equal-size assertion (the
two circuits have different constraint counts) instead of returning one
proof per circuit. -/
theorem c1_counterexample :
    synthesize_circuits_batch [oneConstraintCircuit, emptyCircuit]
        = Except.ok [prA, pr0]
    ∧ prA.input_assignment.length = pr0.input_assignment.length
    ∧ create_proof_batch_priority_inner w1 [oneConstraintCircuit, emptyCircuit]
        (some ()) none
        = (RunResult.panic "only equaly sized circuits are supported", none) :=
  ⟨rfl, rfl, rfl⟩

/-- C1 (amended): for every batch whose synthesis succeeds, whose recorders
additionally all share the first recorder's `a`-length (the equal-size
assertion passes — same public-input arity alone is not enough), whose SRS
resolves, and whose randomization, if supplied, has one scalar per circuit
in each vector, the function returns `Ok` with exactly one proof per input
circuit, and the proof at index `i` is the backend's output for the
assignment synthesized from the circuit at index `i` (input order is
preserved). -/
theorem c1_amended_proofs_index_aligned {S P : Type}
    (prove1 : Assignment F → F → F → S → P)
    (circuits : List (Circuit F)) (srs : S)
    (randomization : Option (List F × List F))
    (provers : List (ProvingAssignment F)) (dp : P)
    (hsyn : synthesize_circuits_batch circuits = Except.ok provers)
    (hsz : sizeCheck provers = true)
    (hrand : ∀ r s, randomization = some (r, s) →
      r.length = circuits.length ∧ s.length = circuits.length) :
    ∃ proofs args,
      create_proof_batch_priority_inner prove1 circuits (some srs) randomization
        = (RunResult.ok proofs, some args)
      ∧ proofs.length = circuits.length
      ∧ ∀ i, i < circuits.length →
          ∃ pr, synthesizeOne (circuits.getD i []) = Except.ok pr
            ∧ proofs.getD i dp
                = prove1 (assignmentFrom pr) (args.r_s.getD i 0)
                    (args.s_s.getD i 0) srs := by
  have hlen : provers.length = circuits.length :=
    mapExcept_ok_length synthesizeOne circuits provers hsyn
  have hconv := batch_checked_conversion circuits provers hsyn
  have hpath := create_proof_ok_path prove1 circuits srs randomization provers
    (provers.map assignmentFrom) hsyn hsz hconv
  set rs := randomization.getD
    (List.replicate provers.length 0, List.replicate provers.length 0) with hrs
  have hr1 : rs.1.length = provers.length := by
    cases hr : randomization with
    | none => simp [hrs, hr]
    | some p =>
      obtain ⟨r, s⟩ := p
      have := (hrand r s hr).1
      simp [hrs, hr, this, hlen]
  have hr2 : rs.2.length = provers.length := by
    cases hr : randomization with
    | none => simp [hrs, hr]
    | some p =>
      obtain ⟨r, s⟩ := p
      have := (hrand r s hr).2
      simp [hrs, hr, this, hlen]
  refine ⟨_, _, hpath, ?_, ?_⟩
  · rw [List.length_zipWith, List.length_zip, List.length_map, hr1, hr2]
    simp [hlen]
  · intro i hi
    have hi' : i < provers.length := hlen ▸ hi
    refine ⟨provers.getD i ProvingAssignment.new,
      mapExcept_ok_getD synthesizeOne circuits provers hsyn i []
        ProvingAssignment.new hi, ?_⟩
    have hzlen : i < (rs.1.zip rs.2).length := by
      rw [List.length_zip, hr1, hr2]
      simpa using hi'
    have hmlen : i < (provers.map assignmentFrom).length := by
      simpa using hi'
    rw [zipWith_getD (fun pc2 rr => prove1 pc2 rr.1 rr.2 srs)
      (provers.map assignmentFrom) (rs.1.zip rs.2) i
      (assignmentFrom ProvingAssignment.new) (0, 0) dp hmlen hzlen]
    rw [map_getD assignmentFrom provers i ProvingAssignment.new]
    rw [zip_getD rs.1 rs.2 i 0 0 (hr1 ▸ hi') (hr2 ▸ hi')]

/-- C1 witness: the amended theorem applied to the concrete uniform batch of
two empty circuits with a resolving SRS and no randomization. -/
theorem c1_witness :
    sizeCheck [pr0, pr0] = true
    ∧ ∃ proofs args,
        create_proof_batch_priority_inner w1 [emptyCircuit, emptyCircuit]
          (some ()) none
          = (RunResult.ok proofs, some args)
        ∧ proofs.length = ([emptyCircuit, emptyCircuit] : List (Circuit F5)).length
        ∧ ∀ i, i < ([emptyCircuit, emptyCircuit] : List (Circuit F5)).length →
            ∃ pr, synthesizeOne ([emptyCircuit, emptyCircuit].getD i [])
                = Except.ok pr
              ∧ proofs.getD i 0
                  = w1 (assignmentFrom pr) (args.r_s.getD i 0)
                      (args.s_s.getD i 0) () :=
  ⟨by decide,
   c1_amended_proofs_index_aligned w1 [emptyCircuit, emptyCircuit] () none
     [pr0, pr0] 0 (by decide) (by decide) (fun r s h => nomatch h)⟩

/-- C2 counterexample: in the batch `[oneInputCircuit, oneConstraintCircuit]`
the two recorders disagree on `input_assignment` length (2 versus 1), yet the
run succeeds and the backend is invoked, because the code compares `a`
lengths (both 2), not input arity — no shape-mismatch error is raised. -/
theorem c2_counterexample :
    synthesize_circuits_batch [oneInputCircuit, oneConstraintCircuit]
        = Except.ok [prI2, prA]
    ∧ prI2.input_assignment.length ≠ prA.input_assignment.length
    ∧ (∃ proofs args,
        create_proof_batch_priority_inner w1
          [oneInputCircuit, oneConstraintCircuit] (some ()) none
          = (RunResult.ok proofs, some args)) :=
  ⟨rfl, by decide, ⟨_, _, rfl⟩⟩

/-- C2 (amended): the batch-uniformity check compares constraint counts (the
`a` lengths), not `input_assignment` lengths, and a mismatch is an
`assert_eq!` panic rather than a returned error value; the backend is still
never invoked on such a batch. -/
theorem c2_amended_panic_on_size_mismatch {S P : Type}
    (prove1 : Assignment F → F → F → S → P) (circuits : List (Circuit F))
    (srsSource : Option S) (randomization : Option (List F × List F))
    (p0 : ProvingAssignment F) (rest : List (ProvingAssignment F))
    (hsyn : synthesize_circuits_batch circuits = Except.ok (p0 :: rest))
    (hbad : ∃ p ∈ p0 :: rest, p.a.length ≠ p0.a.length) :
    create_proof_batch_priority_inner prove1 circuits srsSource randomization
      = (RunResult.panic "only equaly sized circuits are supported", none) := by
  have hsz : sizeCheck (p0 :: rest) = false := by
    obtain ⟨p, hmem, hne⟩ := hbad
    by_contra hc
    rw [Bool.not_eq_false] at hc
    unfold sizeCheck at hc
    rw [List.all_eq_true] at hc
    exact hne (by simpa using hc p hmem)
  exact create_proof_panic_of_sizeCheck prove1 circuits srsSource randomization
    (p0 :: rest) hsyn hsz

/-- C2 witness: the amended theorem applied to a batch whose recorders have
different `a` lengths (2 versus 1). -/
theorem c2_witness :
    (∃ p ∈ [prA, pr0], p.a.length ≠ prA.a.length)
    ∧ create_proof_batch_priority_inner w1 [oneConstraintCircuit, emptyCircuit]
        (none : Option Unit) none
        = (RunResult.panic "only equaly sized circuits are supported", none) :=
  ⟨⟨pr0, by decide, by decide⟩,
   c2_amended_panic_on_size_mismatch w1 [oneConstraintCircuit, emptyCircuit]
     none none prA [pr0] (by decide) ⟨pr0, by decide, by decide⟩⟩

/-- C3 counterexample: for the empty circuit, the single appended extra
constraint evaluates to the triple `(1, 0, 0)` — its B and C sides are the
empty (zero) linear combination — whereas the claimed form
`input_0 · 1 = input_0` would evaluate to `(1, 1, 1)`. -/
theorem c3_counterexample :
    synthesizeOne emptyCircuit = Except.ok pr0
    ∧ pr0.input_assignment.length = 1
    ∧ pr0.a = [1] ∧ pr0.b = [0] ∧ pr0.c = [0]
    ∧ pr0.b.getD 0 0 ≠ (1 : F5)
    ∧ pr0.c.getD 0 0 ≠ pr0.input_assignment.getD 0 0 :=
  ⟨rfl, rfl, rfl, rfl, rfl, by decide, by decide⟩

/-- C3 (amended): for every circuit whose own synthesis succeeds with
recorder state `pa`, `synthesizeOne` appends, after the circuit's own
constraints, exactly one extra constraint per entry of `input_assignment`
(so `pa.input_assignment.length` of them), and extra constraint `i` has the
form `input_i · 0 = 0`: its A evaluation is the value of public input `i`
while its B and C linear combinations are empty, evaluating to zero — not
`input_i · 1 = input_i` as claimed. -/
theorem c3_amended_extra_constraints (circuit : Circuit F)
    (pa : ProvingAssignment F)
    (hsyn : synthesize circuit ((ProvingAssignment.new).alloc_input 1)
        = Except.ok pa) :
    ∃ pr, synthesizeOne circuit = Except.ok pr
      ∧ pr.a = pa.a ++ pa.input_assignment
      ∧ pr.b = pa.b ++ List.replicate pa.input_assignment.length 0
      ∧ pr.c = pa.c ++ List.replicate pa.input_assignment.length 0
      ∧ pr.input_assignment = pa.input_assignment := by
  obtain ⟨ha, hb, hc, hin, _⟩ := addInputConstraints_spec pa
  refine ⟨addInputConstraints pa, ?_, ha, hb, hc, hin⟩
  unfold synthesizeOne
  rw [hsyn]

/-- C3 witness: the amended theorem applied to the empty circuit. -/
theorem c3_witness :
    synthesize emptyCircuit ((ProvingAssignment.new).alloc_input (1 : F5))
        = Except.ok ((ProvingAssignment.new).alloc_input (1 : F5))
    ∧ ∃ pr, synthesizeOne emptyCircuit = Except.ok pr
        ∧ pr.a = ((ProvingAssignment.new).alloc_input (1 : F5)).a
            ++ ((ProvingAssignment.new).alloc_input (1 : F5)).input_assignment
        ∧ pr.b = ((ProvingAssignment.new).alloc_input (1 : F5)).b
            ++ List.replicate
              ((ProvingAssignment.new).alloc_input (1 : F5)).input_assignment.length 0
        ∧ pr.c = ((ProvingAssignment.new).alloc_input (1 : F5)).c
            ++ List.replicate
              ((ProvingAssignment.new).alloc_input (1 : F5)).input_assignment.length 0
        ∧ pr.input_assignment
            = ((ProvingAssignment.new).alloc_input (1 : F5)).input_assignment :=
  ⟨rfl, c3_amended_extra_constraints emptyCircuit _ rfl⟩

/-- C4 counterexample: a nonempty batch whose synthesis fully succeeds and
whose SRS source reports unavailability, but whose recorders fail the
equal-size assertion: the run panics instead of returning the `MalformedSrs`
error, so the claim's quantification over any nonempty batch fails. -/
theorem c4_counterexample :
    synthesize_circuits_batch [oneConstraintCircuit, emptyCircuit]
        = Except.ok [prA, pr0]
    ∧ create_proof_batch_priority_inner w1 [oneConstraintCircuit, emptyCircuit]
        (none : Option Unit) none
        = (RunResult.panic "only equaly sized circuits are supported", none)
    ∧ (RunResult.panic "only equaly sized circuits are supported"
        : RunResult (List Nat))
        ≠ RunResult.err SynthesisError.malformedSrs :=
  ⟨rfl, rfl, by decide⟩

/-- C4 (amended): for every batch whose synthesis succeeds and which passes
the equal-size assertion, an unavailable SRS source makes the run fail with
the `MalformedSrs` error and the backend is never invoked (no backend
arguments are recorded). -/
theorem c4_amended_malformed_srs {S P : Type}
    (prove1 : Assignment F → F → F → S → P) (circuits : List (Circuit F))
    (randomization : Option (List F × List F))
    (provers : List (ProvingAssignment F))
    (hsyn : synthesize_circuits_batch circuits = Except.ok provers)
    (hsz : sizeCheck provers = true) :
    create_proof_batch_priority_inner prove1 circuits (none : Option S)
        randomization
      = (RunResult.err SynthesisError.malformedSrs, none) :=
  create_proof_malformed_path prove1 circuits randomization provers
    (provers.map assignmentFrom) hsyn hsz
    (batch_checked_conversion circuits provers hsyn)

/-- C4 witness: the amended theorem applied to a nonempty uniform batch with
an unavailable SRS. -/
theorem c4_witness :
    sizeCheck [pr0] = true
    ∧ create_proof_batch_priority_inner w1 [emptyCircuit] (none : Option Unit)
        none
        = (RunResult.err SynthesisError.malformedSrs, none) :=
  ⟨by decide,
   c4_amended_malformed_srs w1 [emptyCircuit] none [pr0] (by decide) (by decide)⟩

/-- C5: if circuit `i` is the first whose synthesis fails, the whole batch
run returns exactly that circuit's synthesis error; every already-completed
sibling recorder is discarded (the result carries no assignments) and the
backend is never invoked (no backend arguments are recorded). -/
theorem c5_synthesis_error_aborts {S P : Type}
    (prove1 : Assignment F → F → F → S → P) (circuits : List (Circuit F))
    (srsSource : Option S) (randomization : Option (List F × List F))
    (i : Nat) (e : SynthesisError)
    (hi : i < circuits.length)
    (hfail : synthesizeOne (circuits.getD i []) = Except.error e)
    (hok : ∀ j, j < i → ∃ pr, synthesizeOne (circuits.getD j []) = Except.ok pr) :
    create_proof_batch_priority_inner prove1 circuits srsSource randomization
      = (RunResult.err e, none) :=
  create_proof_err_of_synth prove1 circuits srsSource randomization e
    (mapExcept_error_first synthesizeOne circuits i [] e hi hfail hok)

/-- C5 witness: a batch whose second circuit fails synthesis while the first
succeeds; the run returns the failing circuit's error with no backend call. -/
theorem c5_witness :
    synthesizeOne (([emptyCircuit, failingCircuit] : List (Circuit F5)).getD 1 [])
        = Except.error SynthesisError.assignmentMissing
    ∧ create_proof_batch_priority_inner w1 [emptyCircuit, failingCircuit]
        (some ()) none
        = (RunResult.err SynthesisError.assignmentMissing, none) :=
  ⟨by decide,
   c5_synthesis_error_aborts w1 [emptyCircuit, failingCircuit] (some ()) none 1
     SynthesisError.assignmentMissing (by decide) (by decide)
     (fun j hj => by
       have hj0 : j = 0 := by omega
       subst hj0
       exact ⟨pr0, by decide⟩)⟩

/-- C6: when the caller supplies no randomization and the backend is invoked,
the `r` and `s` vectors passed to it are each `List.replicate n 0` for `n`
the number of input circuits — one additive-identity pair per circuit. -/
theorem c6_default_randomization_zero {S P : Type}
    (prove1 : Assignment F → F → F → S → P) (circuits : List (Circuit F))
    (srsSource : Option S) (args : BackendArgs F S)
    (hcall : (create_proof_batch_priority_inner prove1 circuits srsSource none).2
        = some args) :
    args.r_s = List.replicate circuits.length 0
    ∧ args.s_s = List.replicate circuits.length 0 := by
  cases hsyn : synthesize_circuits_batch circuits with
  | error e =>
    rw [create_proof_err_of_synth prove1 circuits srsSource none e hsyn] at hcall
    cases hcall
  | ok provers =>
    cases hsz : sizeCheck provers with
    | false =>
      rw [create_proof_panic_of_sizeCheck prove1 circuits srsSource none provers
        hsyn hsz] at hcall
      cases hcall
    | true =>
      cases hconv : mapOpt assignmentFromChecked provers with
      | none =>
        rw [create_proof_convpanic_path prove1 circuits srsSource none provers
          hsyn hsz hconv] at hcall
        cases hcall
      | some provers_c2 =>
        cases srsSource with
        | none =>
          rw [create_proof_malformed_path prove1 circuits none provers provers_c2
            hsyn hsz hconv] at hcall
          cases hcall
        | some srs =>
          rw [create_proof_ok_path prove1 circuits srs none provers provers_c2
            hsyn hsz hconv] at hcall
          simp only [Option.some.injEq] at hcall
          subst hcall
          have hlen := mapExcept_ok_length synthesizeOne circuits provers hsyn
          simp [Option.getD, hlen]

/-- C6 witness: a concrete one-circuit run with no randomization whose
backend call receives the all-zero pairs. -/
theorem c6_witness :
    ∃ args,
      (create_proof_batch_priority_inner w1 [emptyCircuit] (some ()) none).2
        = some args
      ∧ args.r_s = List.replicate ([emptyCircuit] : List (Circuit F5)).length 0
      ∧ args.s_s = List.replicate ([emptyCircuit] : List (Circuit F5)).length 0 := by
  cases hcall : (create_proof_batch_priority_inner w1 [emptyCircuit]
      (some ()) none).2 with
  | none => exact absurd hcall (by decide)
  | some args =>
    exact ⟨args, rfl,
      c6_default_randomization_zero w1 [emptyCircuit] (some ()) args hcall⟩

/-- C7: every recorder produced by the per-circuit synthesis has a nonempty
`input_assignment` whose slot 0 holds the multiplicative identity — the
constant-one public input is allocated before the circuit's own synthesis
runs, and synthesis only ever appends. -/
theorem c7_constant_one_first (circuit : Circuit F) (pr : ProvingAssignment F)
    (h : synthesizeOne circuit = Except.ok pr) :
    pr.input_assignment ≠ [] ∧ pr.input_assignment.getD 0 0 = 1 := by
  unfold synthesizeOne at h
  cases hs : synthesize circuit ((ProvingAssignment.new).alloc_input 1) with
  | error e => rw [hs] at h; cases h
  | ok pa =>
    rw [hs] at h
    simp only [Except.ok.injEq] at h
    subst h
    obtain ⟨tl, htl⟩ := synthesize_input_extends circuit _ pa hs
    obtain ⟨_, _, _, hin, _⟩ := addInputConstraints_spec pa
    rw [hin, htl]
    constructor
    · simp [ProvingAssignment.alloc_input, ProvingAssignment.new]
    · simp [ProvingAssignment.alloc_input, ProvingAssignment.new]

/-- C7 witness: the recorder of a circuit that allocates a further public
input still has the constant one at slot 0. -/
theorem c7_witness :
    synthesizeOne oneInputCircuit = Except.ok prI2
    ∧ prI2.input_assignment ≠ [] ∧ prI2.input_assignment.getD 0 0 = 1 :=
  ⟨by decide, c7_constant_one_first oneInputCircuit prI2 (by decide)⟩

/-- C8: every recorder of a successful `synthesize_circuits_batch` has
`a`, `b`, `c` of equal length, so the two equal-length assertions of the
export conversion pass (the checked conversion returns the view rather than
panicking). -/
theorem c8_abc_lengths_equal (circuits : List (Circuit F))
    (provers : List (ProvingAssignment F)) (pr : ProvingAssignment F)
    (hsyn : synthesize_circuits_batch circuits = Except.ok provers)
    (hmem : pr ∈ provers) :
    pr.a.length = pr.b.length ∧ pr.a.length = pr.c.length
    ∧ assignmentFromChecked pr = some (assignmentFrom pr) := by
  have h := batch_prover_abcOk circuits provers hsyn pr hmem
  refine ⟨h.1, h.2, ?_⟩
  unfold assignmentFromChecked
  rw [if_pos ⟨h.1, h.2⟩]

/-- C8 witness: the invariant checked on a concrete two-circuit batch. -/
theorem c8_witness :
    prI2 ∈ [prI2, prA]
    ∧ prI2.a.length = prI2.b.length ∧ prI2.a.length = prI2.c.length
    ∧ assignmentFromChecked prI2 = some (assignmentFrom prI2) :=
  ⟨by decide,
   c8_abc_lengths_equal [oneInputCircuit, oneConstraintCircuit] [prI2, prA]
     prI2 (by decide) (by decide)⟩

/-- C9: the exported flat view agrees field-by-field with its source
recorder: each density entry carries that tracker's bit buffer, bit length
and cached popcount (a_aux, b_input, b_aux, in that order), `abc_size` is
the length of `a`, the two assignment sizes are the assignment lengths, and
every buffer of the view is the corresponding source buffer itself — the
shallow analogue of borrowing without copying. -/
theorem c9_export_view_fields {F : Type} (pa : ProvingAssignment F) :
    (assignmentFrom pa).a_aux_density = pa.a_aux_density.bv
    ∧ (assignmentFrom pa).a_aux_bit_len = pa.a_aux_density.bv.length
    ∧ (assignmentFrom pa).a_aux_popcount = pa.a_aux_density.get_total_density
    ∧ (assignmentFrom pa).b_inp_density = pa.b_input_density.bv
    ∧ (assignmentFrom pa).b_inp_bit_len = pa.b_input_density.bv.length
    ∧ (assignmentFrom pa).b_inp_popcount = pa.b_input_density.get_total_density
    ∧ (assignmentFrom pa).b_aux_density = pa.b_aux_density.bv
    ∧ (assignmentFrom pa).b_aux_bit_len = pa.b_aux_density.bv.length
    ∧ (assignmentFrom pa).b_aux_popcount = pa.b_aux_density.get_total_density
    ∧ (assignmentFrom pa).a = pa.a
    ∧ (assignmentFrom pa).b = pa.b
    ∧ (assignmentFrom pa).c = pa.c
    ∧ (assignmentFrom pa).abc_size = pa.a.length
    ∧ (assignmentFrom pa).inp_assignment_data = pa.input_assignment
    ∧ (assignmentFrom pa).inp_assignment_size = pa.input_assignment.length
    ∧ (assignmentFrom pa).aux_assignment_data = pa.aux_assignment
    ∧ (assignmentFrom pa).aux_assignment_size = pa.aux_assignment.length :=
  ⟨rfl, rfl, rfl, rfl, rfl, rfl, rfl, rfl, rfl, rfl, rfl, rfl, rfl, rfl, rfl,
   rfl, rfl⟩

/-- C10: on the empty batch the run never panics — the equal-size loop runs
zero iterations, so the first element is never indexed — yet the SRS is
still resolved: an unavailable SRS source yields the `MalformedSrs` error,
and an available one yields `Ok` with the empty proof vector. -/
theorem c10_empty_batch {S P : Type}
    (prove1 : Assignment F → F → F → S → P)
    (randomization : Option (List F × List F)) :
    (create_proof_batch_priority_inner prove1 ([] : List (Circuit F))
        (none : Option S) randomization).1
      = RunResult.err SynthesisError.malformedSrs
    ∧ ∀ srs : S,
        (create_proof_batch_priority_inner prove1 ([] : List (Circuit F))
          (some srs) randomization).1 = RunResult.ok ([] : List P) := by
  constructor
  · rw [create_proof_malformed_path prove1 [] randomization [] [] rfl rfl rfl]
  · intro srs
    rw [create_proof_ok_path prove1 [] srs randomization [] [] rfl rfl rfl]
    simp

end Supraseal
